import Mathlib

/-
  Verification of aredis/pubsub.py: the pub/sub subscription registry,
  message dispatch, the command-execution retry wrapper, the reconnect
  replay hook, and the cluster variant's bounded retry.

  Python runtime values that matter here are text strings and byte
  strings; dictionaries are modelled as insertion-ordered association
  lists with Python `d[k] = v` / `del d[k]` semantics.
-/

namespace Aredis

/-- A Python runtime value reaching the pub/sub layer: either a text
string (`str`) or a byte string (`bytes`, payload kept as its decoded
text for comparison purposes). -/
inductive RVal where
  | str (s : String)
  | bytes (s : String)
  deriving DecidableEq

/-- Modelled from the spec: `nativestr` from `aredis.utils` (not under
src/) converts the reply's first element to the lower-cased textual
message-type token, decoding byte strings to text and leaving text
unchanged. -/
def nativestr : RVal → String
  | .str s => s
  | .bytes s => s

/-- `PubSub.encode`: normalize a channel/pattern key to the form read
off the connection (decode bytes when the session decodes responses,
encode text when it does not). -/
def encode (decodeResponses : Bool) : RVal → RVal
  | .str s => if decodeResponses then .str s else .bytes s
  | .bytes s => if decodeResponses then .str s else .bytes s

/-- `k.decode(encoding)` as used by `on_connect` on stored byte-string
keys (total on the well-formed domain; a text key is returned as is). -/
def decodeKey : RVal → RVal
  | .str s => .str s
  | .bytes s => .str s

def isStr : RVal → Bool
  | .str _ => true
  | .bytes _ => false

def isBytes : RVal → Bool
  | .str _ => false
  | .bytes _ => true

/-- A handler slot: Python stores either a callable (modelled by an
identifier) or `None`. -/
abbrev Handlers := List (RVal × Option Nat)

/-- Python `d.get(k, None)`-style lookup on an insertion-ordered dict. -/
def pyGet : Handlers → RVal → Option (Option Nat)
  | [], _ => none
  | p :: rest, k => if p.1 = k then some p.2 else pyGet rest k

/-- Python `d[k] = v`: replace the value at an existing key in place,
else append the new entry. -/
def pyDictSet : Handlers → RVal → Option Nat → Handlers
  | [], k, v => [(k, v)]
  | p :: rest, k, v => if p.1 = k then (k, v) :: rest else p :: pyDictSet rest k v

/-- Python `d.update(new)`: set each entry of `new` in order. -/
def pyDictUpdate (d new : Handlers) : Handlers :=
  new.foldl (fun acc p => pyDictSet acc p.1 p.2) d

/-- Python `try: del d[k] except KeyError: pass`. -/
def pyDictDel : Handlers → RVal → Handlers
  | [], _ => []
  | p :: rest, k => if p.1 = k then rest else p :: pyDictDel rest k

/-- The keys of a dict, in insertion order. -/
def keys (d : Handlers) : List RVal := d.map Prod.fst

/-- The two subscription mappings of a `PubSub` session. -/
structure SubState where
  channels : Handlers
  patterns : Handlers
  deriving DecidableEq

/-- Python exceptions distinguished by `PubSub._execute` and the retry
layers. -/
inductive PyExc where
  | cancelled
  | connError
  | timeoutError
  | indexError
  | otherError (code : Nat)
  deriving DecidableEq

/-- A parsed pub/sub message as built by `handle_message`. -/
structure Message where
  type : String
  pattern : Option RVal
  channel : RVal
  data : RVal
  deriving DecidableEq

/-- `PubSub.PUBLISH_MESSAGE_TYPES`. -/
def PUBLISH_MESSAGE_TYPES : List String := ["message", "pmessage"]

/-- `PubSub.UNSUBSCRIBE_MESSAGE_TYPES`. -/
def UNSUBSCRIBE_MESSAGE_TYPES : List String := ["unsubscribe", "punsubscribe"]

/-- `response[i]` with Python's IndexError on a short reply. -/
def idx (response : List RVal) (i : Nat) : Except PyExc RVal :=
  match response.get? i with
  | some v => .ok v
  | none => .error .indexError

/-- Outcome of `PubSub.handle_message`: the value returned to the
caller (`none` models Python `return None`), the handler invocations it
performed (handler identifier paired with the message passed), and the
updated mappings. -/
structure HMResult where
  result : Option Message
  calls : List (Nat × Message)
  state : SubState
  deriving DecidableEq

/-- `PubSub.handle_message(response, ignore_subscribe_messages)`:
classify the reply, build the `Message`, drop unsubscribed keys on
unsubscribe acknowledgements, dispatch deliveries to a registered
handler or return them, and suppress acknowledgements when either the
call argument or the session flag asks for it. -/
def handle_message (st : SubState) (sessionIgnore ignoreArg : Bool)
    (response : List RVal) : Except PyExc HMResult := do
  let r0 ← idx response 0
  let mt := nativestr r0
  let msg : Message ←
    if mt = "pmessage" then do
      let p ← idx response 1
      let c ← idx response 2
      let d ← idx response 3
      pure { type := mt, pattern := some p, channel := c, data := d }
    else do
      let c ← idx response 1
      let d ← idx response 2
      pure { type := mt, pattern := none, channel := c, data := d }
  let st1 : SubState :=
    if mt ∈ UNSUBSCRIBE_MESSAGE_TYPES then
      if mt = "punsubscribe" then
        { st with patterns := pyDictDel st.patterns msg.channel }
      else
        { st with channels := pyDictDel st.channels msg.channel }
    else st
  if mt ∈ PUBLISH_MESSAGE_TYPES then
    let handler : Option Nat :=
      if mt = "pmessage" then
        match msg.pattern with
        | some p => (pyGet st1.patterns p).join
        | none => none
      else (pyGet st1.channels msg.channel).join
    match handler with
    | some h => pure ⟨none, [(h, msg)], st1⟩
    | none => pure ⟨some msg, [], st1⟩
  else
    if ignoreArg ∨ sessionIgnore then pure ⟨none, [], st1⟩
    else pure ⟨some msg, [], st1⟩

instance {ε α : Type} [DecidableEq ε] [DecidableEq α] : DecidableEq (Except ε α) := fun x y =>
  match x, y with
  | .ok a, .ok b => decidable_of_iff (a = b) (by simp)
  | .ok _, .error _ => .isFalse (by simp)
  | .error _, .ok _ => .isFalse (by simp)
  | .error e, .error f => decidable_of_iff (e = f) (by simp)

/-- Observable actions of `PubSub._execute` on its connection. -/
inductive ExecEvent where
  | cmdAttempt (n : Nat)
  | disconnect
  | connectAttempt
  | clearConnectCallbacks
  deriving DecidableEq

/-- The environment `_execute` runs against: the connection's
configuration flags and the outcomes the runtime would produce for the
first command attempt, the manual reconnect, and the retried command
attempt. -/
structure ExecEnv where
  retryOnTimeout : Bool
  canRead : Bool
  first : Except PyExc (Option RVal)
  connectResult : Except PyExc Unit
  second : Except PyExc (Option RVal)
  deriving DecidableEq

/-- `PubSub._execute(connection, command, *args)`: run the command; on
cancellation disconnect only when the read buffer is non-empty and
return `None`; on a connection or timeout error disconnect, re-raise a
timeout the connection is not configured to retry, otherwise reconnect
(clearing connect callbacks and propagating a reconnect failure) and
run the command exactly once more. Returns the call's outcome and the
trace of connection actions. -/
def pubsub_execute (env : ExecEnv) : Except PyExc (Option RVal) × List ExecEvent :=
  match env.first with
  | .ok v => (.ok v, [.cmdAttempt 1])
  | .error .cancelled =>
      if env.canRead then (.ok none, [.cmdAttempt 1, .disconnect])
      else (.ok none, [.cmdAttempt 1])
  | .error e =>
      if e = .connError ∨ e = .timeoutError then
        if ¬env.retryOnTimeout ∧ e = .timeoutError then
          (.error e, [.cmdAttempt 1, .disconnect])
        else
          match env.connectResult with
          | .error ce =>
              (.error ce,
               [.cmdAttempt 1, .disconnect, .connectAttempt, .clearConnectCallbacks])
          | .ok _ =>
              (env.second,
               [.cmdAttempt 1, .disconnect, .connectAttempt, .cmdAttempt 2])
      else (.error e, [.cmdAttempt 1])

/-- Observable actions of a `subscribe`/`psubscribe` call: the actions
of the underlying `_execute`, plus the registry mutation the call
performs after the send. -/
inductive SubEvent where
  | exec (e : ExecEvent)
  | mutateChannels (ks : List RVal)
  | mutatePatterns (ks : List RVal)
  deriving DecidableEq

/-- The `new_channels`/`new_patterns` dict a subscribe call builds:
positional names are encoded and entered with no handler, then keyword
entries are encoded and entered with their handlers. -/
def newKeysDict (dr : Bool) (args : List RVal)
    (kwargs : List (RVal × Option Nat)) : Handlers :=
  let base := pyDictUpdate [] ((args.map (encode dr)).map (fun k => (k, (none : Option Nat))))
  pyDictUpdate base (kwargs.map (fun p => (encode dr p.1, p.2)))

/-- Outcome of a subscribe call: the call's result, the updated
session mappings, and the trace of observable actions. -/
structure SubscribeResult where
  result : Except PyExc Unit
  state : SubState
  events : List SubEvent
  deriving DecidableEq

/-- `PubSub.subscribe(*args, **kwargs)`: build `new_channels`, send
`SUBSCRIBE` through `execute_command`/`_execute`, and only when the
send completes without raising, update the channel mapping. -/
def subscribe (dr : Bool) (env : ExecEnv) (st : SubState) (args : List RVal)
    (kwargs : List (RVal × Option Nat)) : SubscribeResult :=
  let newChannels := newKeysDict dr args kwargs
  let (res, ev) := pubsub_execute env
  match res with
  | .error e => ⟨.error e, st, ev.map SubEvent.exec⟩
  | .ok _ =>
      ⟨.ok (), { st with channels := pyDictUpdate st.channels newChannels },
       ev.map SubEvent.exec ++ [SubEvent.mutateChannels (keys newChannels)]⟩

/-- `PubSub.psubscribe(*args, **kwargs)`: as `subscribe`, for the
pattern mapping. -/
def psubscribe (dr : Bool) (env : ExecEnv) (st : SubState) (args : List RVal)
    (kwargs : List (RVal × Option Nat)) : SubscribeResult :=
  let newPatterns := newKeysDict dr args kwargs
  let (res, ev) := pubsub_execute env
  match res with
  | .error e => ⟨.error e, st, ev.map SubEvent.exec⟩
  | .ok _ =>
      ⟨.ok (), { st with patterns := pyDictUpdate st.patterns newPatterns },
       ev.map SubEvent.exec ++ [SubEvent.mutatePatterns (keys newPatterns)]⟩

/-- Well-formedness of a session mapping: keys are distinct (they came
from a Python dict) and each key is stored in the session's negotiated
encoding (text when responses are decoded, bytes otherwise). -/
def wfDict (dr : Bool) (d : Handlers) : Prop :=
  (keys d).Nodup ∧ ∀ p ∈ d, (if dr then isStr p.1 else isBytes p.1) = true

/-- The key-decoded entry sequence `on_connect` iterates over when
rebuilding a mapping as keyword arguments: each stored key is decoded
back to text when the session reads raw bytes. -/
def replayKw (dr : Bool) (d : Handlers) : List (RVal × Option Nat) :=
  d.map (fun p => (if dr then p.1 else decodeKey p.1, p.2))

/-- The subscribe/psubscribe calls `on_connect` issues, with the
keyword dictionaries passed to them. -/
inductive OCEvent where
  | subscribeCall (kwargs : List (RVal × Option Nat))
  | psubscribeCall (kwargs : List (RVal × Option Nat))
  deriving DecidableEq

/-- Outcome of `on_connect`. -/
structure OnConnectResult where
  result : Except PyExc Unit
  state : SubState
  calls : List OCEvent
  deriving DecidableEq

/-- `PubSub.on_connect(connection)`: when the channel mapping is
non-empty, rebuild it as a keyword dict (decoding keys to text when the
session does not decode responses) and replay it through `subscribe`;
then do the same for the pattern mapping through `psubscribe`. A send
failure propagates. `envS`/`envP` are the environments of the two
sends. -/
def on_connect (dr : Bool) (envS envP : ExecEnv) (st : SubState) : OnConnectResult :=
  let step1 : Except PyExc Unit × SubState × List OCEvent :=
    if st.channels = [] then (.ok (), st, [])
    else
      let kw := pyDictUpdate [] (replayKw dr st.channels)
      let r := subscribe dr envS st [] kw
      (r.result, r.state, [OCEvent.subscribeCall kw])
  match step1 with
  | (.error e, st1, calls) => ⟨.error e, st1, calls⟩
  | (.ok _, st1, calls) =>
      if st1.patterns = [] then ⟨.ok (), st1, calls⟩
      else
        let kw := pyDictUpdate [] (replayKw dr st1.patterns)
        let r := psubscribe dr envP st1 [] kw
        ⟨r.result, r.state, calls ++ [OCEvent.psubscribeCall kw]⟩

/-- Outcome of `ClusterPubSub.handle_message`: what it returns, the
handler invocations, the updated mappings, the possibly-updated "last
pong" timestamp, and the replies it logged and dropped. -/
structure ClusterHMResult where
  result : Option Message
  calls : List (Nat × Message)
  state : SubState
  lastPong : Option Nat
  logged : List (List RVal)
  deriving DecidableEq

/-- `ClusterPubSub.handle_message(response, ignore_subscribe_messages)`:
a reply opening with the text `pong` records the current time as "last
pong" and returns nothing; a reply whose first element is not the text
`message` or `subscribe` is logged and dropped; otherwise the base
class dispatch runs. -/
def cluster_handle_message (st : SubState) (lastPong : Option Nat) (now : Nat)
    (sessionIgnore ignoreArg : Bool) (response : List RVal) :
    Except PyExc ClusterHMResult := do
  let r0 ← idx response 0
  if r0 = RVal.str "pong" then
    pure ⟨none, [], st, some now, []⟩
  else if r0 ∉ [RVal.str "message", RVal.str "subscribe"] then
    pure ⟨none, [], st, lastPong, [response]⟩
  else do
    let r ← handle_message st sessionIgnore ignoreArg response
    pure ⟨r.result, r.calls, r.state, lastPong, []⟩

/-- The cluster session state touched by the bounded retry of
`ClusterPubSub.execute_command`: the held connection (identified by its
acquisition number), the node table's reinitialization counter, the
number of send attempts issued so far, the number of connections
acquired, and the list of back-off sleeps performed, in order. -/
structure CState where
  connection : Option Nat
  reinitCounter : Nat
  attempts : Nat
  acquisitions : Nat
  sleeps : List Nat
  deriving DecidableEq

/-- `ClusterPubSub.execute_command(*args, tries=0)`: acquire a
connection when none is held, then send through `_execute`; the
`oracle` gives each attempt's outcome, indexed by the global attempt
number. On a failure with `tries > 25` the failure is re-raised;
otherwise the attempt counter is incremented, the reinitialization
counter is incremented, the held connection is discarded, the call
sleeps `tries + 1` (with `tries` already incremented) and recurses. -/
def cluster_execute_command (oracle : Nat → Except Nat Unit) (tries : Nat)
    (st : CState) : Except Nat Unit × CState :=
  let st0 := if st.connection.isNone
    then { st with connection := some st.acquisitions,
                   acquisitions := st.acquisitions + 1 }
    else st
  let st1 := { st0 with attempts := st0.attempts + 1 }
  match oracle st0.attempts with
  | .ok _ => (.ok (), st1)
  | .error e =>
      if h : tries > 25 then (.error e, st1)
      else
        let t := tries + 1
        let st2 := { st1 with reinitCounter := st1.reinitCounter + 1,
                              connection := none,
                              sleeps := st1.sleeps ++ [t + 1] }
        cluster_execute_command oracle t st2
termination_by 26 - tries
decreasing_by simp_wf; omega

/- Dictionary lemmas. -/

theorem pyGet_eq_none_iff (d : Handlers) (k : RVal) :
    pyGet d k = none ↔ k ∉ keys d := by
  induction d with
  | nil => simp [pyGet, keys]
  | cons p rest ih =>
      simp only [pyGet, keys, List.map_cons, List.mem_cons]
      split
      · next h => simp [h.symm]
      · next h =>
          rw [ih]
          simp only [keys]
          constructor
          · intro hk hc
            rcases hc with hc | hc
            · exact h hc.symm
            · exact hk hc
          · intro hk hc
            exact hk (Or.inr hc)

theorem pyDictSet_eq_self {d : Handlers} {k : RVal} {v : Option Nat}
    (h : pyGet d k = some v) : pyDictSet d k v = d := by
  induction d with
  | nil => simp [pyGet] at h
  | cons p rest ih =>
      simp only [pyGet] at h
      simp only [pyDictSet]
      split
      · next hk =>
          rw [if_pos hk] at h
          obtain ⟨rfl⟩ : p.2 = v := Option.some.inj h
          rw [← hk]
      · next hk =>
          rw [if_neg hk] at h
          rw [ih h]

theorem pyGet_of_mem_nodup {d : Handlers} {p : RVal × Option Nat}
    (hnd : (keys d).Nodup) (hp : p ∈ d) : pyGet d p.1 = some p.2 := by
  induction d with
  | nil => cases hp
  | cons q rest ih =>
      simp only [keys, List.map_cons, List.nodup_cons] at hnd
      rcases List.mem_cons.mp hp with rfl | hmem
      · simp [pyGet]
      · simp only [pyGet]
        split
        · next hk =>
            exact absurd (hk ▸ List.mem_map_of_mem Prod.fst hmem) hnd.1
        · exact ih hnd.2 hmem

theorem pyDictUpdate_cons (d : Handlers) (p : RVal × Option Nat)
    (l : Handlers) :
    pyDictUpdate d (p :: l) = pyDictUpdate (pyDictSet d p.1 p.2) l := rfl

theorem pyDictUpdate_eq_self {d new : Handlers}
    (h : ∀ p ∈ new, pyGet d p.1 = some p.2) : pyDictUpdate d new = d := by
  induction new with
  | nil => rfl
  | cons p rest ih =>
      rw [pyDictUpdate_cons, pyDictSet_eq_self (h p (List.mem_cons_self p rest))]
      exact ih (fun q hq => h q (List.mem_cons_of_mem p hq))

theorem pyDictUpdate_self {d : Handlers} (hnd : (keys d).Nodup) :
    pyDictUpdate d d = d :=
  pyDictUpdate_eq_self (fun _ hp => pyGet_of_mem_nodup hnd hp)

theorem pyDictSet_append {d : Handlers} {k : RVal} {v : Option Nat}
    (h : pyGet d k = none) : pyDictSet d k v = d ++ [(k, v)] := by
  induction d with
  | nil => rfl
  | cons p rest ih =>
      simp only [pyGet] at h
      simp only [pyDictSet]
      split
      · next hk => rw [if_pos hk] at h; cases h
      · next hk =>
          rw [if_neg hk] at h
          rw [ih h, List.cons_append]

theorem pyDictUpdate_eq_append {l : Handlers} :
    ∀ {d : Handlers}, (∀ p ∈ l, pyGet d p.1 = none) → (keys l).Nodup →
      pyDictUpdate d l = d ++ l := by
  induction l with
  | nil => intro d _ _; simp [pyDictUpdate]
  | cons p rest ih =>
      intro d h hnd
      simp only [keys, List.map_cons, List.nodup_cons] at hnd
      rw [pyDictUpdate_cons, pyDictSet_append (h p (List.mem_cons_self p rest))]
      rw [ih ?_ hnd.2, List.append_assoc]
      · rfl
      · intro q hq
        rw [pyGet_eq_none_iff]
        simp only [keys, List.map_append, List.mem_append]
        intro hc
        rcases hc with hc | hc
        · exact (pyGet_eq_none_iff d q.1).mp (h q (List.mem_cons_of_mem p hq)) hc
        · simp only [List.map_cons, List.map_nil, List.mem_singleton] at hc
          exact hnd.1 (hc ▸ List.mem_map_of_mem Prod.fst hq)

theorem pyDictUpdate_nil {l : Handlers} (hnd : (keys l).Nodup) :
    pyDictUpdate [] l = l := by
  rw [@pyDictUpdate_eq_append l [] (fun p _ => rfl) hnd, List.nil_append]

theorem mem_keys_pyDictSet_self (d : Handlers) (k : RVal) (v : Option Nat) :
    k ∈ keys (pyDictSet d k v) := by
  induction d with
  | nil => simp [pyDictSet, keys]
  | cons p rest ih =>
      simp only [pyDictSet]
      split
      · simp [keys]
      · simp only [keys, List.map_cons, List.mem_cons]
        exact Or.inr ih

theorem mem_keys_pyDictSet_of_mem {d : Handlers} {a : RVal} (k : RVal)
    (v : Option Nat) (h : a ∈ keys d) : a ∈ keys (pyDictSet d k v) := by
  induction d with
  | nil => cases h
  | cons p rest ih =>
      simp only [keys, List.map_cons, List.mem_cons] at h
      simp only [pyDictSet]
      split
      · next hk =>
          simp only [keys, List.map_cons, List.mem_cons]
          rcases h with rfl | h
          · exact Or.inl (hk ▸ rfl)
          · exact Or.inr h
      · simp only [keys, List.map_cons, List.mem_cons]
        rcases h with rfl | h
        · exact Or.inl rfl
        · exact Or.inr (ih h)

theorem mem_keys_pyDictUpdate_left {new : Handlers} :
    ∀ {d : Handlers} {a : RVal}, a ∈ keys d → a ∈ keys (pyDictUpdate d new) := by
  induction new with
  | nil => intro d a h; exact h
  | cons p rest ih =>
      intro d a h
      rw [pyDictUpdate_cons]
      exact ih (mem_keys_pyDictSet_of_mem p.1 p.2 h)

theorem mem_keys_pyDictUpdate_right {new : Handlers} :
    ∀ {d : Handlers} {a : RVal}, a ∈ keys new → a ∈ keys (pyDictUpdate d new) := by
  induction new with
  | nil => intro d a h; cases h
  | cons p rest ih =>
      intro d a h
      simp only [keys, List.map_cons, List.mem_cons] at h
      rw [pyDictUpdate_cons]
      rcases h with rfl | h
      · exact mem_keys_pyDictUpdate_left (mem_keys_pyDictSet_self d p.1 p.2)
      · exact ih h

theorem pyDictDel_of_not_mem {d : Handlers} {k : RVal} (h : k ∉ keys d) :
    pyDictDel d k = d := by
  induction d with
  | nil => rfl
  | cons p rest ih =>
      simp only [keys, List.map_cons, List.mem_cons] at h
      push_neg at h
      simp only [pyDictDel]
      rw [if_neg (fun hc => h.1 hc.symm), ih h.2]

/- Claim theorems. -/

/-- Claim C4: for every delivery reply (`message` or `pmessage`) given
to `handle_message`, a handler is looked up by pattern (for `pmessage`)
or by channel (otherwise); a registered handler is invoked exactly once
with the parsed `Message` and nothing is returned, and with no
registered handler the parsed `Message` is returned unchanged; the
mappings are untouched either way. -/
theorem handle_message_delivery (st : SubState) (si ia : Bool)
    (t p ch d : RVal) (h : Nat) :
    (nativestr t = "message" → (pyGet st.channels ch).join = some h →
      handle_message st si ia [t, ch, d] =
        .ok ⟨none, [(h, ⟨"message", none, ch, d⟩)], st⟩) ∧
    (nativestr t = "message" → (pyGet st.channels ch).join = none →
      handle_message st si ia [t, ch, d] =
        .ok ⟨some ⟨"message", none, ch, d⟩, [], st⟩) ∧
    (nativestr t = "pmessage" → (pyGet st.patterns p).join = some h →
      handle_message st si ia [t, p, ch, d] =
        .ok ⟨none, [(h, ⟨"pmessage", some p, ch, d⟩)], st⟩) ∧
    (nativestr t = "pmessage" → (pyGet st.patterns p).join = none →
      handle_message st si ia [t, p, ch, d] =
        .ok ⟨some ⟨"pmessage", some p, ch, d⟩, [], st⟩) := by
  refine ⟨?_, ?_, ?_, ?_⟩ <;> intro h1 h2
  · rw [Option.join_eq_some] at h2
    simp [handle_message, idx, h1, h2, UNSUBSCRIBE_MESSAGE_TYPES,
      PUBLISH_MESSAGE_TYPES, Bind.bind, Except.bind, Pure.pure, Except.pure]
  · simp only [handle_message, idx, List.get?, h1, UNSUBSCRIBE_MESSAGE_TYPES,
      PUBLISH_MESSAGE_TYPES, Bind.bind, Except.bind, Pure.pure, Except.pure]
    simp [h1, Option.join] at h2 ⊢
    cases hpg : pyGet st.channels ch with
    | none => simp
    | some a => rw [hpg] at h2; simp_all
  · rw [Option.join_eq_some] at h2
    simp [handle_message, idx, h1, h2, UNSUBSCRIBE_MESSAGE_TYPES,
      PUBLISH_MESSAGE_TYPES, Bind.bind, Except.bind, Pure.pure, Except.pure]
  · simp only [handle_message, idx, List.get?, h1, UNSUBSCRIBE_MESSAGE_TYPES,
      PUBLISH_MESSAGE_TYPES, Bind.bind, Except.bind, Pure.pure, Except.pure]
    simp [h1, Option.join] at h2 ⊢
    cases hpg : pyGet st.patterns p with
    | none => simp
    | some a => rw [hpg] at h2; simp_all

/-- Claim C4 witness: a registered channel handler is invoked exactly
once and nothing is returned; without a handler the message itself is
returned. -/
theorem handle_message_delivery_witness :
    handle_message ⟨[(.str "c", some 5)], []⟩ false false
        [.str "message", .str "c", .str "d"] =
      .ok ⟨none, [(5, ⟨"message", none, .str "c", .str "d"⟩)],
           ⟨[(.str "c", some 5)], []⟩⟩ ∧
    handle_message ⟨[], []⟩ false false [.str "message", .str "c", .str "d"] =
      .ok ⟨some ⟨"message", none, .str "c", .str "d"⟩, [], ⟨[], []⟩⟩ :=
  ⟨(handle_message_delivery ⟨[(.str "c", some 5)], []⟩ false false
      (.str "message") (.str "p") (.str "c") (.str "d") 5).1 (by decide) (by decide),
   (handle_message_delivery ⟨[], []⟩ false false
      (.str "message") (.str "p") (.str "c") (.str "d") 5).2.1 (by decide) (by decide)⟩

/-- Claim C5: an `unsubscribe` (`punsubscribe`) reply removes the named
key from the channel (pattern) mapping, leaving the other mapping
untouched, and removing an absent key is a no-op rather than an
error. -/
theorem handle_message_unsubscribe (st : SubState) (si ia : Bool)
    (t ch d : RVal) :
    (nativestr t = "unsubscribe" →
      handle_message st si ia [t, ch, d] =
        .ok ⟨(if ia ∨ si then none else some ⟨"unsubscribe", none, ch, d⟩), [],
             ⟨pyDictDel st.channels ch, st.patterns⟩⟩) ∧
    (nativestr t = "punsubscribe" →
      handle_message st si ia [t, ch, d] =
        .ok ⟨(if ia ∨ si then none else some ⟨"punsubscribe", none, ch, d⟩), [],
             ⟨st.channels, pyDictDel st.patterns ch⟩⟩) ∧
    (ch ∉ keys st.channels → pyDictDel st.channels ch = st.channels) ∧
    (ch ∉ keys st.patterns → pyDictDel st.patterns ch = st.patterns) := by
  refine ⟨?_, ?_, fun hne => pyDictDel_of_not_mem hne,
    fun hne => pyDictDel_of_not_mem hne⟩ <;> intro h1 <;>
    simp [handle_message, idx, h1, UNSUBSCRIBE_MESSAGE_TYPES,
      PUBLISH_MESSAGE_TYPES, Bind.bind, Except.bind, Pure.pure, Except.pure] <;>
    split <;> rfl

/-- Claim C5 witness: an `unsubscribe` reply for a never-present channel
key leaves both mappings unchanged and raises nothing. -/
theorem handle_message_unsubscribe_witness :
    handle_message ⟨[(.str "a", none)], [(.str "p", some 3)]⟩ false false
        [.str "unsubscribe", .str "x", .str "0"] =
      .ok ⟨some ⟨"unsubscribe", none, .str "x", .str "0"⟩, [],
           ⟨[(.str "a", none)], [(.str "p", some 3)]⟩⟩ := by
  rw [(handle_message_unsubscribe ⟨[(.str "a", none)], [(.str "p", some 3)]⟩
    false false (.str "unsubscribe") (.str "x") (.str "0")).1 (by decide)]
  decide

/-- Claim C6: a subscribe/unsubscribe acknowledgement with no handler
path yields nothing exactly when the call's `ignore_subscribe_messages`
argument or the session flag is set, and otherwise yields the parsed
`Message` with its type token, channel set and pattern absent. -/
theorem handle_message_ack_suppression (st : SubState) (si ia : Bool)
    (t ch d : RVal)
    (hmem : nativestr t ∈ ["subscribe", "unsubscribe", "psubscribe", "punsubscribe"]) :
    ∃ st1 : SubState,
      handle_message st si ia [t, ch, d] =
        .ok ⟨(if ia ∨ si then none else some ⟨nativestr t, none, ch, d⟩), [], st1⟩ := by
  simp only [List.mem_cons, List.mem_singleton, List.not_mem_nil, or_false] at hmem
  rcases hmem with h1 | h1 | h1 | h1
  · refine ⟨st, ?_⟩
    simp [handle_message, idx, h1, UNSUBSCRIBE_MESSAGE_TYPES,
      PUBLISH_MESSAGE_TYPES, Bind.bind, Except.bind, Pure.pure, Except.pure]
    split <;> rfl
  · refine ⟨⟨pyDictDel st.channels ch, st.patterns⟩, ?_⟩
    simp [handle_message, idx, h1, UNSUBSCRIBE_MESSAGE_TYPES,
      PUBLISH_MESSAGE_TYPES, Bind.bind, Except.bind, Pure.pure, Except.pure]
    split <;> rfl
  · refine ⟨st, ?_⟩
    simp [handle_message, idx, h1, UNSUBSCRIBE_MESSAGE_TYPES,
      PUBLISH_MESSAGE_TYPES, Bind.bind, Except.bind, Pure.pure, Except.pure]
    split <;> rfl
  · refine ⟨⟨st.channels, pyDictDel st.patterns ch⟩, ?_⟩
    simp [handle_message, idx, h1, UNSUBSCRIBE_MESSAGE_TYPES,
      PUBLISH_MESSAGE_TYPES, Bind.bind, Except.bind, Pure.pure, Except.pure]
    split <;> rfl

/-- Claim C6 witness: with the call flag set a `subscribe`
acknowledgement yields nothing; with both flags clear it is returned
with type `subscribe`, channel set and pattern absent. -/
theorem handle_message_ack_suppression_witness :
    (∃ st1 : SubState,
      handle_message ⟨[], []⟩ false true [.str "subscribe", .str "c", .str "1"] =
        .ok ⟨none, [], st1⟩) ∧
    (∃ st1 : SubState,
      handle_message ⟨[], []⟩ false false [.str "subscribe", .str "c", .str "1"] =
        .ok ⟨some ⟨"subscribe", none, .str "c", .str "1"⟩, [], st1⟩) := by
  constructor
  · obtain ⟨st1, h⟩ := handle_message_ack_suppression ⟨[], []⟩ false true
      (.str "subscribe") (.str "c") (.str "1") (by decide)
    exact ⟨st1, by rw [h]; simp [nativestr]⟩
  · obtain ⟨st1, h⟩ := handle_message_ack_suppression ⟨[], []⟩ false false
      (.str "subscribe") (.str "c") (.str "1") (by decide)
    exact ⟨st1, by rw [h]; simp [nativestr]⟩

/-- Claim C7: `_execute` handles a connection-level or timeout failure
by disconnecting, reconnecting, and retrying the command exactly once
with no nested retry; a timeout on a connection not configured to retry
timeouts is re-raised without a reconnect; and a failing manual
reconnect clears connect callbacks and propagates. -/
theorem pubsub_execute_retry (env : ExecEnv) (ce : PyExc) :
    ((env.first = .error .connError ∨
        (env.first = .error .timeoutError ∧ env.retryOnTimeout = true)) →
      env.connectResult = .ok () →
      pubsub_execute env =
        (env.second, [.cmdAttempt 1, .disconnect, .connectAttempt, .cmdAttempt 2])) ∧
    (env.first = .error .timeoutError → env.retryOnTimeout = false →
      pubsub_execute env = (.error .timeoutError, [.cmdAttempt 1, .disconnect])) ∧
    ((env.first = .error .connError ∨
        (env.first = .error .timeoutError ∧ env.retryOnTimeout = true)) →
      env.connectResult = .error ce →
      pubsub_execute env =
        (.error ce,
         [.cmdAttempt 1, .disconnect, .connectAttempt, .clearConnectCallbacks])) := by
  refine ⟨?_, ?_, ?_⟩
  · rintro (h1 | ⟨h1, h2⟩) hc
    · simp [pubsub_execute, h1, hc]
    · simp [pubsub_execute, h1, h2, hc]
  · intro h1 h2
    simp [pubsub_execute, h1, h2]
  · rintro (h1 | ⟨h1, h2⟩) hc
    · simp [pubsub_execute, h1, hc]
    · simp [pubsub_execute, h1, h2, hc]

/-- Claim C7 witness: the three branches at concrete environments. -/
theorem pubsub_execute_retry_witness :
    pubsub_execute ⟨true, false, .error .connError, .ok (), .ok none⟩ =
      (.ok none, [.cmdAttempt 1, .disconnect, .connectAttempt, .cmdAttempt 2]) ∧
    pubsub_execute ⟨false, false, .error .timeoutError, .ok (), .ok none⟩ =
      (.error .timeoutError, [.cmdAttempt 1, .disconnect]) ∧
    pubsub_execute ⟨true, false, .error .connError, .error (.otherError 3), .ok none⟩ =
      (.error (.otherError 3),
       [.cmdAttempt 1, .disconnect, .connectAttempt, .clearConnectCallbacks]) :=
  ⟨(pubsub_execute_retry ⟨true, false, .error .connError, .ok (), .ok none⟩
      (.otherError 3)).1 (Or.inl rfl) rfl,
   (pubsub_execute_retry ⟨false, false, .error .timeoutError, .ok (), .ok none⟩
      (.otherError 3)).2.1 rfl rfl,
   (pubsub_execute_retry ⟨true, false, .error .connError, .error (.otherError 3), .ok none⟩
      (.otherError 3)).2.2 (Or.inl rfl) rfl⟩

theorem keys_map_pair (l : List RVal) (v : Option Nat) :
    keys (l.map (fun k => (k, v))) = l := by
  simp only [keys, List.map_map]
  show List.map id l = l
  exact List.map_id l

theorem keys_map_encode (dr : Bool) (kwargs : List (RVal × Option Nat)) :
    keys (kwargs.map (fun p => (encode dr p.1, p.2))) =
      kwargs.map (fun p => encode dr p.1) := by
  simp [keys, List.map_map]

theorem mem_keys_newKeysDict_of_arg {dr : Bool} {args : List RVal}
    {kwargs : List (RVal × Option Nat)} {a : RVal} (ha : a ∈ args) :
    encode dr a ∈ keys (newKeysDict dr args kwargs) := by
  unfold newKeysDict
  apply mem_keys_pyDictUpdate_left
  apply mem_keys_pyDictUpdate_right
  rw [keys_map_pair]
  exact List.mem_map_of_mem (encode dr) ha

theorem mem_keys_newKeysDict_of_kw {dr : Bool} {args : List RVal}
    {kwargs : List (RVal × Option Nat)} {p : RVal × Option Nat}
    (hp : p ∈ kwargs) :
    encode dr p.1 ∈ keys (newKeysDict dr args kwargs) := by
  unfold newKeysDict
  apply mem_keys_pyDictUpdate_right
  rw [keys_map_encode]
  exact List.mem_map_of_mem (fun q => encode dr q.1) hp

/-- Claim C2: a subscribe (or psubscribe) call whose send raises leaves
the corresponding mapping untouched and re-raises; a call whose send
succeeds has every one of its encoded keys in the mapping afterwards,
and its trace performs the registry mutation strictly after the send
actions. -/
theorem subscribe_send_before_update (dr : Bool) (env : ExecEnv)
    (st : SubState) (args : List RVal) (kwargs : List (RVal × Option Nat))
    (e : PyExc) (v : Option RVal) :
    ((pubsub_execute env).1 = .error e →
      subscribe dr env st args kwargs =
        ⟨.error e, st, (pubsub_execute env).2.map SubEvent.exec⟩ ∧
      psubscribe dr env st args kwargs =
        ⟨.error e, st, (pubsub_execute env).2.map SubEvent.exec⟩) ∧
    ((pubsub_execute env).1 = .ok v →
      subscribe dr env st args kwargs =
        ⟨.ok (),
         { st with channels := pyDictUpdate st.channels (newKeysDict dr args kwargs) },
         (pubsub_execute env).2.map SubEvent.exec ++
           [SubEvent.mutateChannels (keys (newKeysDict dr args kwargs))]⟩ ∧
      psubscribe dr env st args kwargs =
        ⟨.ok (),
         { st with patterns := pyDictUpdate st.patterns (newKeysDict dr args kwargs) },
         (pubsub_execute env).2.map SubEvent.exec ++
           [SubEvent.mutatePatterns (keys (newKeysDict dr args kwargs))]⟩ ∧
      (∀ a ∈ args,
        encode dr a ∈ keys (subscribe dr env st args kwargs).state.channels ∧
        encode dr a ∈ keys (psubscribe dr env st args kwargs).state.patterns) ∧
      (∀ p ∈ kwargs,
        encode dr p.1 ∈ keys (subscribe dr env st args kwargs).state.channels ∧
        encode dr p.1 ∈ keys (psubscribe dr env st args kwargs).state.patterns)) := by
  constructor
  · intro hfail
    rcases hpe : pubsub_execute env with ⟨res, ev⟩
    replace hfail : res = Except.error e := by rw [hpe] at hfail; exact hfail
    subst hfail
    constructor <;> simp [subscribe, psubscribe, hpe]
  · intro hok
    rcases hpe : pubsub_execute env with ⟨res, ev⟩
    replace hok : res = Except.ok v := by rw [hpe] at hok; exact hok
    subst hok
    have hsub : subscribe dr env st args kwargs =
        ⟨.ok (),
         { st with channels := pyDictUpdate st.channels (newKeysDict dr args kwargs) },
         ev.map SubEvent.exec ++
           [SubEvent.mutateChannels (keys (newKeysDict dr args kwargs))]⟩ := by
      simp [subscribe, hpe]
    have hpsub : psubscribe dr env st args kwargs =
        ⟨.ok (),
         { st with patterns := pyDictUpdate st.patterns (newKeysDict dr args kwargs) },
         ev.map SubEvent.exec ++
           [SubEvent.mutatePatterns (keys (newKeysDict dr args kwargs))]⟩ := by
      simp [psubscribe, hpe]
    refine ⟨hsub, hpsub, ?_, ?_⟩
    · intro a ha
      rw [hsub, hpsub]
      exact ⟨mem_keys_pyDictUpdate_right (mem_keys_newKeysDict_of_arg ha),
             mem_keys_pyDictUpdate_right (mem_keys_newKeysDict_of_arg ha)⟩
    · intro p hp
      rw [hsub, hpsub]
      exact ⟨mem_keys_pyDictUpdate_right (mem_keys_newKeysDict_of_kw hp),
             mem_keys_pyDictUpdate_right (mem_keys_newKeysDict_of_kw hp)⟩

/-- Claim C2 witness: a failing send adds nothing and re-raises; a
successful send records the encoded key after the send action. -/
theorem subscribe_send_before_update_witness :
    subscribe true ⟨true, false, .error (.otherError 9), .ok (), .ok none⟩
        ⟨[], []⟩ [.str "news"] [] =
      ⟨.error (.otherError 9), ⟨[], []⟩, [.exec (.cmdAttempt 1)]⟩ ∧
    subscribe true ⟨true, false, .ok none, .ok (), .ok none⟩ ⟨[], []⟩ [.str "news"] [] =
      ⟨.ok (), ⟨[(.str "news", none)], []⟩,
       [.exec (.cmdAttempt 1), .mutateChannels [.str "news"]]⟩ := by
  constructor
  · exact ((subscribe_send_before_update true
      ⟨true, false, .error (.otherError 9), .ok (), .ok none⟩ ⟨[], []⟩
      [.str "news"] [] (.otherError 9) none).1 rfl).1
  · have h := ((subscribe_send_before_update true
      ⟨true, false, .ok none, .ok (), .ok none⟩ ⟨[], []⟩
      [.str "news"] [] (.otherError 9) none).2 rfl).1
    rw [h]; decide

/-- Claim C10: a cancellation of the awaited command inside `_execute`
is swallowed (disconnecting only when the connection still has buffered
data), so the enclosing subscribe call completes normally and still
adds all its encoded keys to the channel mapping. -/
theorem subscribe_cancelled_still_updates (dr : Bool) (env : ExecEnv)
    (st : SubState) (args : List RVal) (kwargs : List (RVal × Option Nat))
    (hc : env.first = .error .cancelled) :
    (subscribe dr env st args kwargs).result = .ok () ∧
    (subscribe dr env st args kwargs).state.channels =
      pyDictUpdate st.channels (newKeysDict dr args kwargs) ∧
    (∀ a ∈ args, encode dr a ∈ keys (subscribe dr env st args kwargs).state.channels) ∧
    (∀ p ∈ kwargs, encode dr p.1 ∈ keys (subscribe dr env st args kwargs).state.channels) ∧
    (SubEvent.exec ExecEvent.disconnect ∈ (subscribe dr env st args kwargs).events ↔
      env.canRead = true) := by
  have hex : pubsub_execute env =
      (.ok none, if env.canRead then [.cmdAttempt 1, .disconnect] else [.cmdAttempt 1]) := by
    cases hcr : env.canRead <;> simp [pubsub_execute, hc, hcr]
  have hsub : subscribe dr env st args kwargs =
      ⟨.ok (),
       { st with channels := pyDictUpdate st.channels (newKeysDict dr args kwargs) },
       (if env.canRead then [ExecEvent.cmdAttempt 1, .disconnect]
        else [ExecEvent.cmdAttempt 1]).map SubEvent.exec ++
         [SubEvent.mutateChannels (keys (newKeysDict dr args kwargs))]⟩ := by
    simp [subscribe, hex]
  rw [hsub]
  refine ⟨rfl, rfl, ?_, ?_, ?_⟩
  · intro a ha
    exact mem_keys_pyDictUpdate_right (mem_keys_newKeysDict_of_arg ha)
  · intro p hp
    exact mem_keys_pyDictUpdate_right (mem_keys_newKeysDict_of_kw hp)
  · cases hcr : env.canRead <;> simp

/-- Claim C10 witness: with a cancelled send and an empty read buffer,
subscribe succeeds, records the key, and does not disconnect. -/
theorem subscribe_cancelled_still_updates_witness :
    (subscribe true ⟨true, false, .error .cancelled, .ok (), .ok none⟩
        ⟨[], []⟩ [.str "news"] []).result = .ok () ∧
    RVal.str "news" ∈
      keys (subscribe true ⟨true, false, .error .cancelled, .ok (), .ok none⟩
        ⟨[], []⟩ [.str "news"] []).state.channels ∧
    SubEvent.exec ExecEvent.disconnect ∉
      (subscribe true ⟨true, false, .error .cancelled, .ok (), .ok none⟩
        ⟨[], []⟩ [.str "news"] []).events := by
  have h := subscribe_cancelled_still_updates true
    ⟨true, false, .error .cancelled, .ok (), .ok none⟩ ⟨[], []⟩ [.str "news"] [] rfl
  refine ⟨h.1, ?_, ?_⟩
  · have := h.2.2.1 (.str "news") (by decide)
    simpa using this
  · intro hmem
    have := h.2.2.2.2.mp hmem
    cases this

theorem wf_key_of_mem {dr : Bool} {d : Handlers} (hwf : wfDict dr d)
    {k : RVal} (hk : k ∈ keys d) :
    (if dr then isStr k else isBytes k) = true := by
  obtain ⟨p, hp, rfl⟩ := List.mem_map.mp hk
  exact hwf.2 p hp

theorem replayKw_keys_nodup {dr : Bool} {d : Handlers} (hwf : wfDict dr d) :
    (keys (replayKw dr d)).Nodup := by
  have hk : keys (replayKw dr d) =
      (keys d).map (fun k => if dr then k else decodeKey k) := by
    simp [keys, replayKw, List.map_map]
  rw [hk]
  refine List.Nodup.map_on ?_ hwf.1
  intro x hx y hy hxy
  have hbx := wf_key_of_mem hwf hx
  have hby := wf_key_of_mem hwf hy
  cases dr with
  | true => simpa using hxy
  | false =>
      simp at hbx hby hxy
      cases x with
      | str s => simp [isBytes] at hbx
      | bytes s =>
          cases y with
          | str t => simp [isBytes] at hby
          | bytes t => simpa [decodeKey] using hxy

theorem replayKw_rebuild {dr : Bool} {d : Handlers} (hwf : wfDict dr d) :
    pyDictUpdate [] (replayKw dr d) = replayKw dr d :=
  pyDictUpdate_nil (replayKw_keys_nodup hwf)

theorem newKeysDict_replay {dr : Bool} {d : Handlers} (hwf : wfDict dr d) :
    newKeysDict dr [] (replayKw dr d) = d := by
  unfold newKeysDict
  simp only [List.map_nil]
  have hmap : (replayKw dr d).map (fun p => (encode dr p.1, p.2)) = d := by
    unfold replayKw
    rw [List.map_map]
    have hcongr : ∀ p ∈ d,
        ((fun p => (encode dr p.1, p.2)) ∘
          (fun p => ((if dr then p.1 else decodeKey p.1 : RVal), p.2))) p = id p := by
      intro p hp
      have hkey := hwf.2 p hp
      simp only [Function.comp, id]
      cases dr with
      | true =>
          simp only [reduceIte] at hkey ⊢
          have he : encode true p.1 = p.1 := by
            cases hk : p.1 with
            | str s => simp [encode]
            | bytes s => rw [hk] at hkey; simp [isStr] at hkey
          rw [he]
      | false =>
          simp only [Bool.false_eq_true, if_false] at hkey ⊢
          have he : encode false (decodeKey p.1) = p.1 := by
            cases hk : p.1 with
            | str s => rw [hk] at hkey; simp [isBytes] at hkey
            | bytes s => simp [decodeKey, encode]
          rw [he]
    rw [List.map_congr_left hcongr, List.map_id]
  rw [hmap]
  show pyDictUpdate (pyDictUpdate [] []) d = d
  show pyDictUpdate [] d = d
  exact pyDictUpdate_nil hwf.1

/-- Claim C3: `on_connect` issues a subscribe call whose keyword
arguments are exactly the channel mapping's entries (keys decoded back
to text in raw-byte mode, handlers unchanged) and a psubscribe call
with exactly the pattern mapping's entries; and the replay is
idempotent: when both sends succeed, both mappings are unchanged
afterwards. Empty mappings are not replayed. -/
theorem on_connect_replay (dr : Bool) (envS envP : ExecEnv) (st : SubState)
    (vS vP : Option RVal)
    (hwfC : wfDict dr st.channels) (hwfP : wfDict dr st.patterns)
    (hS : (pubsub_execute envS).1 = .ok vS)
    (hP : (pubsub_execute envP).1 = .ok vP) :
    on_connect dr envS envP st =
      ⟨.ok (), st,
       (if st.channels = [] then [] else
         [OCEvent.subscribeCall (replayKw dr st.channels)]) ++
       (if st.patterns = [] then [] else
         [OCEvent.psubscribeCall (replayKw dr st.patterns)])⟩ := by
  rcases hpeS : pubsub_execute envS with ⟨resS, evS⟩
  replace hS : resS = Except.ok vS := by rw [hpeS] at hS; exact hS
  subst hS
  rcases hpeP : pubsub_execute envP with ⟨resP, evP⟩
  replace hP : resP = Except.ok vP := by rw [hpeP] at hP; exact hP
  subst hP
  have hreC := replayKw_rebuild hwfC
  have hreP := replayKw_rebuild hwfP
  have hsub : subscribe dr envS st [] (replayKw dr st.channels) =
      ⟨.ok (), st,
       evS.map SubEvent.exec ++ [SubEvent.mutateChannels (keys st.channels)]⟩ := by
    simp only [subscribe, hpeS, newKeysDict_replay hwfC, pyDictUpdate_self hwfC.1]
  have hpsub : psubscribe dr envP st [] (replayKw dr st.patterns) =
      ⟨.ok (), st,
       evP.map SubEvent.exec ++ [SubEvent.mutatePatterns (keys st.patterns)]⟩ := by
    simp only [psubscribe, hpeP, newKeysDict_replay hwfP, pyDictUpdate_self hwfP.1]
  by_cases hc : st.channels = [] <;> by_cases hp : st.patterns = [] <;>
    simp [on_connect, hc, hp, hreC, hreP, hsub, hpsub]

/-- Claim C3 witness: a raw-byte-mode session with one channel and one
pattern replays both with text keys and the same handlers, and keeps
both mappings unchanged. -/
theorem on_connect_replay_witness :
    on_connect false ⟨true, false, .ok none, .ok (), .ok none⟩
        ⟨true, false, .ok none, .ok (), .ok none⟩
        ⟨[(.bytes "a", some 1)], [(.bytes "p", none)]⟩ =
      ⟨.ok (), ⟨[(.bytes "a", some 1)], [(.bytes "p", none)]⟩,
       [.subscribeCall [(.str "a", some 1)], .psubscribeCall [(.str "p", none)]]⟩ := by
  rw [on_connect_replay false ⟨true, false, .ok none, .ok (), .ok none⟩
    ⟨true, false, .ok none, .ok (), .ok none⟩
    ⟨[(.bytes "a", some 1)], [(.bytes "p", none)]⟩ none none
    (by constructor <;> decide) (by constructor <;> decide) rfl rfl]
  decide

/-- Claim C8: in the cluster variant, a reply opening with `pong`
updates the "last pong" timestamp and never surfaces as a message, and
a reply whose first element is outside the known set is logged and
dropped, returning nothing rather than raising. -/
theorem cluster_pong_and_unknown (st : SubState) (lastPong : Option Nat)
    (now : Nat) (si ia : Bool) (r0 : RVal) (rest : List RVal) :
    (cluster_handle_message st lastPong now si ia (.str "pong" :: rest) =
      .ok ⟨none, [], st, some now, []⟩) ∧
    (r0 ≠ .str "pong" → r0 ∉ [RVal.str "message", RVal.str "subscribe"] →
      cluster_handle_message st lastPong now si ia (r0 :: rest) =
        .ok ⟨none, [], st, lastPong, [r0 :: rest]⟩) := by
  constructor
  · simp [cluster_handle_message, idx, Bind.bind, Except.bind, Pure.pure, Except.pure]
  · intro h1 h2
    simp [cluster_handle_message, idx, h1, h2, Bind.bind, Except.bind,
      Pure.pure, Except.pure]

/-- Claim C8 witness: a `pong` reply and an unknown-typed reply at
concrete inputs. -/
theorem cluster_pong_and_unknown_witness :
    cluster_handle_message ⟨[], []⟩ none 7 false false [.str "pong"] =
      .ok ⟨none, [], ⟨[], []⟩, some 7, []⟩ ∧
    cluster_handle_message ⟨[], []⟩ (some 3) 7 false false [.str "weird", .str "x"] =
      .ok ⟨none, [], ⟨[], []⟩, some 3, [[.str "weird", .str "x"]]⟩ :=
  ⟨(cluster_pong_and_unknown ⟨[], []⟩ none 7 false false (.str "weird") []).1,
   (cluster_pong_and_unknown ⟨[], []⟩ (some 3) 7 false false (.str "weird")
      [.str "x"]).2 (by decide) (by decide)⟩

/-- Claim C9: the cluster variant forwards only replies whose first
element is the text `message` or `subscribe` to the base dispatch;
`pmessage`, `psubscribe`, `unsubscribe` and `punsubscribe` replies are
logged and dropped with no handler call and no mapping change, so
pattern deliveries never reach handlers and unsubscribe
acknowledgements never remove keys. -/
theorem cluster_forwards_only_message_subscribe (st : SubState)
    (lastPong : Option Nat) (now : Nat) (si ia : Bool) (t : RVal)
    (rest : List RVal) :
    (t ∈ [RVal.str "pmessage", RVal.str "psubscribe",
          RVal.str "unsubscribe", RVal.str "punsubscribe"] →
      cluster_handle_message st lastPong now si ia (t :: rest) =
        .ok ⟨none, [], st, lastPong, [t :: rest]⟩) ∧
    (t = RVal.str "message" ∨ t = RVal.str "subscribe" →
      cluster_handle_message st lastPong now si ia (t :: rest) =
        (handle_message st si ia (t :: rest)).map
          (fun r => ⟨r.result, r.calls, r.state, lastPong, []⟩)) := by
  constructor
  · intro hmem
    simp only [List.mem_cons, List.mem_singleton, List.not_mem_nil, or_false] at hmem
    rcases hmem with rfl | rfl | rfl | rfl <;>
      simp [cluster_handle_message, idx, Bind.bind, Except.bind, Pure.pure, Except.pure]
  · intro h
    cases hh : handle_message st si ia (t :: rest) <;>
      rcases h with rfl | rfl <;>
      simp [cluster_handle_message, idx, hh, Bind.bind, Except.bind,
        Pure.pure, Except.pure, Except.map]

/-- Claim C9 witness: a `pmessage` delivery with a registered pattern
handler is dropped (no handler call), and an `unsubscribe`
acknowledgement removes nothing; a `message` reply is forwarded to the
base dispatch. -/
theorem cluster_forwards_only_message_subscribe_witness :
    cluster_handle_message ⟨[], [(.str "p", some 4)]⟩ none 0 false false
        [.str "pmessage", .str "p", .str "c", .str "d"] =
      .ok ⟨none, [], ⟨[], [(.str "p", some 4)]⟩, none, [[.str "pmessage", .str "p", .str "c", .str "d"]]⟩ ∧
    cluster_handle_message ⟨[(.str "x", none)], []⟩ none 0 false false
        [.str "unsubscribe", .str "x", .str "0"] =
      .ok ⟨none, [], ⟨[(.str "x", none)], []⟩, none, [[.str "unsubscribe", .str "x", .str "0"]]⟩ ∧
    cluster_handle_message ⟨[], []⟩ none 0 false false
        [.str "message", .str "c", .str "d"] =
      .ok ⟨some ⟨"message", none, .str "c", .str "d"⟩, [], ⟨[], []⟩, none, []⟩ := by
  refine ⟨?_, ?_, ?_⟩
  · exact (cluster_forwards_only_message_subscribe ⟨[], [(.str "p", some 4)]⟩
      none 0 false false (.str "pmessage") [.str "p", .str "c", .str "d"]).1 (by decide)
  · exact (cluster_forwards_only_message_subscribe ⟨[(.str "x", none)], []⟩
      none 0 false false (.str "unsubscribe") [.str "x", .str "0"]).1 (by decide)
  · rw [(cluster_forwards_only_message_subscribe ⟨[], []⟩
      none 0 false false (.str "message") [.str "c", .str "d"]).2 (Or.inl rfl)]
    decide

set_option maxHeartbeats 1000000 in
/-- Claim C1 counterexample: forcing every attempt of the cluster
`execute_command` to fail, the bounded retry issues 27 attempts in
total (the initial send plus 26 retries) before re-raising, so it does
not stop within 26 attempts: a 26th (and a 27th) attempt is issued,
contradicting "exactly 25 retries" and "no 26th attempt". -/
theorem cluster_retry_cap_counterexample :
    (cluster_execute_command (fun _ => .error 7) 0 ⟨none, 0, 0, 0, []⟩).2.attempts = 27 ∧
    ¬ ((cluster_execute_command (fun _ => .error 7) 0 ⟨none, 0, 0, 0, []⟩).2.attempts ≤ 26) := by
  constructor <;> simp [cluster_execute_command]

set_option maxHeartbeats 1000000 in
/-- Claim C1 (amended): when every attempt fails, the cluster
`execute_command` starting at `tries = 0` gives up after exactly 26
retries (27 attempts in total, issuing no 28th attempt), re-raising the
failure of the last attempt; before each retry it discards the held
connection (hence 27 acquisitions in total), increments the cluster
reinitialization counter (26 times), and sleeps
(number of failures so far) + 1 time-units, i.e. 2, 3, ..., 27. -/
theorem cluster_retry_cap (errs : Nat → Nat) :
    cluster_execute_command (fun n => .error (errs n)) 0 ⟨none, 0, 0, 0, []⟩ =
      (.error (errs 26),
       ⟨some 26, 26, 27, 27,
        [2, 3, 4, 5, 6, 7, 8, 9, 10, 11, 12, 13, 14, 15, 16, 17, 18, 19, 20,
         21, 22, 23, 24, 25, 26, 27]⟩) := by
  simp [cluster_execute_command]

end Aredis
